import Mathlib

/-!
# Credential watcher and secret discovery: a verification development

Part one embeds `pkg/mcp/creds/watcher.go`: the loaders `loadCertPair` and
`loadCACert`, the methods `set`, `get`, `start` and `watch` of
`CertificateWatcher`, and `WatchFiles`.  Go's multiple return values are
tuples, an `error` is an `Option String` (`none` is `nil`), the mutex-guarded
slot is a record field, and the `select` of the watch loop is a step function
over the case that fired.  Calls that leave the process (file reads, log
lines, test probes) are appended to a trace so that frame properties can
speak about them.

Part two models the secret discovery server, whose implementation is not among
the sources (only its test is), from the specification.
-/

set_option autoImplicit false

namespace Creds

/-- Contents of a file, one number per byte. -/
abbrev Bytes := List Nat

/-- Go `error` value: `none` is `nil`, `some msg` an error with that text. -/
abbrev GoError := Option String

/-- The package variable `readFile` (`ioutil.ReadFile`) seen as a snapshot of
the file system: for each path either the bytes or the read error. -/
abbrev FileSystem := String → Except String Bytes

/-- Calls that are visible outside the watcher. -/
inductive Effect where
  /-- a call `readFile(path)` -/
  | read (path : String)
  /-- a line written by `scope.Errorf` -/
  | logError (msg : String)
  /-- a line written by `scope.Debugf` or `scope.Debug` -/
  | logDebug (msg : String)
  /-- a call of `watchCertEventHandledProbe` -/
  | certProbe
  /-- a call of `watchKeyEventHandledProbe` -/
  | keyProbe
  deriving DecidableEq, Repr

abbrev Trace := List Effect

/-- The parts of `crypto/tls` and `crypto/x509` the watcher calls.  They are
standard-library code, taken as parameters. -/
structure TLSLib (Certificate CertPool : Type) where
  /-- the zero value `tls.Certificate{}` -/
  zeroCertificate : Certificate
  /-- `tls.X509KeyPair(certPEMBlock, keyPEMBlock)`: a value and an error -/
  X509KeyPair : Bytes → Bytes → Certificate × GoError
  /-- `x509.NewCertPool()` -/
  NewCertPool : CertPool
  /-- `certPool.AppendCertsFromPEM(ca)`: the pool afterwards and the `ok` flag -/
  AppendCertsFromPEM : CertPool → Bytes → CertPool × Bool

/-- Everything `watcher.go` takes from outside: the two libraries, the result
of `fw.Add` per path, and whether each test probe variable is non-nil. -/
structure Env (Certificate CertPool : Type) where
  lib : TLSLib Certificate CertPool
  fwAdd : String → GoError
  watchCertEventHandledProbe : Bool
  watchKeyEventHandledProbe : Bool

/-- The struct `Options`. -/
structure Options where
  CertificateFile : String
  KeyFile : String
  CACertificateFile : String
  deriving DecidableEq, Repr

/-- The struct `CertificateWatcher`; `stopCh` is an input of the watch loop and
`certMutex` guards `cert`, so neither is a field here.  `caCertPool` is a
pointer, hence optional. -/
structure CertificateWatcher (Certificate CertPool : Type) where
  options : Options
  cert : Certificate
  caCertPool : Option CertPool

/-- Modelled from the spec: the `FileWatcher` collaborator
(`istio.io/istio/pkg/filewatcher`, not among the sources), which owns the watch
handles: the paths it watches and whether it was closed. -/
structure FileWatcher where
  watched : List String
  closed : Bool
  deriving DecidableEq, Repr

/-- `newFileWatcher()`. -/
def newFileWatcher : FileWatcher := { watched := [], closed := false }

/-- `fw.Add(path)`: registers the watch unless the collaborator reports an
error for that path. -/
def FileWatcher.Add (add : String → GoError) (fw : FileWatcher) (path : String) :
    FileWatcher × GoError :=
  match add path with
  | some err => (fw, some err)
  | none => ({ fw with watched := fw.watched ++ [path] }, none)

/-- `fw.Close()`: releases every watch. -/
def FileWatcher.Close (_fw : FileWatcher) : FileWatcher := { watched := [], closed := true }

/-- State of the process as far as the watcher is concerned: the watcher
struct, the file watcher made by `start` (if it got that far), whether the
goroutine `go c.watch(fw)` was launched and has not returned, and the trace. -/
structure World (Certificate CertPool : Type) where
  c : CertificateWatcher Certificate CertPool
  fw : Option FileWatcher
  watching : Bool
  trace : Trace

variable {Certificate CertPool : Type}

/-- The method `set`: replaces the certificate slot. -/
def CertificateWatcher.set (c : CertificateWatcher Certificate CertPool) (cert : Certificate) :
    CertificateWatcher Certificate CertPool :=
  { c with cert := cert }

/-- The method `get`: the currently loaded certificate. -/
def CertificateWatcher.get (c : CertificateWatcher Certificate CertPool) : Certificate :=
  c.cert

/-- A call of the package variable `readFile`, recorded in the trace. -/
def readFile (fs : FileSystem) (path : String) (tr : Trace) : Except String Bytes × Trace :=
  (fs path, tr ++ [Effect.read path])

/-- The function `loadCertPair`. -/
def loadCertPair (L : TLSLib Certificate CertPool) (fs : FileSystem)
    (certFile keyFile : String) (tr : Trace) : (Certificate × GoError) × Trace :=
  match readFile fs certFile tr with
  | (.error err, tr1) => ((L.zeroCertificate, some err), tr1)
  | (.ok certPEMBlock, tr1) =>
    match readFile fs keyFile tr1 with
    | (.error err, tr2) => ((L.zeroCertificate, some err), tr2)
    | (.ok keyPEMBlock, tr2) =>
      match L.X509KeyPair certPEMBlock keyPEMBlock with
      | (cert, some err) =>
        ((cert, some ("error loading client certificate files (" ++ certFile ++ ", "
            ++ keyFile ++ "): " ++ err)), tr2)
      | (cert, none) => ((cert, none), tr2)

/-- The function `loadCACert`. -/
def loadCACert (L : TLSLib Certificate CertPool) (fs : FileSystem)
    (caCertFile : String) (tr : Trace) : (Option CertPool × GoError) × Trace :=
  let certPool := L.NewCertPool
  match readFile fs caCertFile tr with
  | (.error err, tr1) =>
    ((none, some ("error loading CA certificate file (" ++ caCertFile ++ "): " ++ err)), tr1)
  | (.ok ca, tr1) =>
    match L.AppendCertsFromPEM certPool ca with
    | (_, false) =>
      ((none, some "failed to append loaded CA certificate to the certificate pool"), tr1)
    | (pool, true) => ((some pool, none), tr1)

/-- The method `start`.  The result is the world when `start` returns and the
error it returns. -/
def start (E : Env Certificate CertPool) (fs : FileSystem)
    (w : World Certificate CertPool) : World Certificate CertPool × GoError :=
  match loadCACert E.lib fs w.c.options.CACertificateFile w.trace with
  | ((_, some err), tr1) => ({ w with trace := tr1 }, some err)
  | ((caCertPool, none), tr1) =>
    match loadCertPair E.lib fs w.c.options.CertificateFile w.c.options.KeyFile tr1 with
    | ((_, some err), tr2) => ({ w with trace := tr2 }, some err)
    | ((cert, none), tr2) =>
      let c1 := w.c.set cert
      let fw := newFileWatcher
      match fw.Add E.fwAdd c1.options.CertificateFile with
      | (fw1, some err) => ({ w with c := c1, fw := some fw1, trace := tr2 }, some err)
      | (fw1, none) =>
        match fw1.Add E.fwAdd c1.options.KeyFile with
        | (fw2, some err) => ({ w with c := c1, fw := some fw2, trace := tr2 }, some err)
        | (fw2, none) =>
          let tr3 := tr2 ++ [Effect.logDebug ("Begin watching certificate files: "
            ++ c1.options.CertificateFile ++ ", " ++ c1.options.KeyFile ++ ": ")]
          ({ c := { c1 with caCertPool := caCertPool }, fw := some fw2, watching := true,
             trace := tr3 }, none)

/-- The world in which `WatchFiles` builds its watcher: zero certificate, nil
pool, nothing watched. -/
def newWorld (E : Env Certificate CertPool) (credentials : Options) :
    World Certificate CertPool :=
  { c := { options := credentials, cert := E.lib.zeroCertificate, caCertPool := none },
    fw := none, watching := false, trace := [] }

/-- The function `WatchFiles`: the watcher pointer (nil on failure), the error,
and the world left behind. -/
def WatchFiles (E : Env Certificate CertPool) (fs : FileSystem) (credentials : Options) :
    (Option (CertificateWatcher Certificate CertPool) × GoError) × World Certificate CertPool :=
  match start E fs (newWorld E credentials) with
  | (w1, some err) => ((none, some err), w1)
  | (w1, none) => ((some w1.c, none), w1)

/-- Bits of `fsnotify.Op` (`Create Op = 1 << iota`, then `Write`, `Remove`,
`Rename`, `Chmod`), constants of the fsnotify package. -/
def Create : Nat := 1

def Write : Nat := 2

def Remove : Nat := 4

def Rename : Nat := 8

def Chmod : Nat := 16

/-- The struct `fsnotify.Event`; `Op` is a `uint32` bit set. -/
structure Event where
  Name : String
  Op : Nat
  deriving DecidableEq, Repr

/-- The case of the `select` in `watch` that fired, with what was received:
for the two event channels `none` is a receive on a closed channel
(`more == false`). -/
inductive SelectCase where
  | certEvents (r : Option Event)
  | keyEvents (r : Option Event)
  | certErrors (e : GoError)
  | keyErrors (e : GoError)
  | stopCh
  deriving DecidableEq, Repr

/-- How one iteration of the `for` loop in `watch` ends: with another
iteration, or with `return`. -/
inductive Control where
  | again
  | returned
  deriving DecidableEq, Repr

/-- Text of an error under the verb `%v`. -/
def showError (e : GoError) : String := e.getD "<nil>"

/-- One iteration of the loop of the method `watch`: the body of the `select`
for the case that fired, with the file system as it is at that moment. -/
def watchIter (E : Env Certificate CertPool) (fs : FileSystem)
    (w : World Certificate CertPool) (sel : SelectCase) :
    World Certificate CertPool × Control :=
  match sel with
  | .certEvents none => ({ w with watching := false }, .returned)
  | .certEvents (some e) =>
    let w1 :=
      if e.Op &&& Write = Write ∨ e.Op &&& Create = Create then
        match loadCertPair E.lib fs w.c.options.CertificateFile w.c.options.KeyFile w.trace with
        | ((_, some err), tr) =>
          { w with trace := tr ++
              [Effect.logError ("error loading certificates after watch event: " ++ err)] }
        | ((cert, none), tr) => { w with c := w.c.set cert, trace := tr }
      else w
    let w2 :=
      if E.watchCertEventHandledProbe then { w1 with trace := w1.trace ++ [Effect.certProbe] }
      else w1
    (w2, .again)
  | .keyEvents none => ({ w with watching := false }, .returned)
  | .keyEvents (some e) =>
    let w1 :=
      if e.Op &&& Write = Write ∨ e.Op &&& Create = Create then
        match loadCertPair E.lib fs w.c.options.CertificateFile w.c.options.KeyFile w.trace with
        | ((_, some err), tr) =>
          { w with trace := tr ++
              [Effect.logError ("error loading certificates after watch event: " ++ err)] }
        | ((cert, none), tr) => { w with c := w.c.set cert, trace := tr }
      else w
    let w2 :=
      if E.watchKeyEventHandledProbe then { w1 with trace := w1.trace ++ [Effect.keyProbe] }
      else w1
    (w2, .again)
  | .certErrors e =>
    ({ w with trace := w.trace ++
        [Effect.logError ("error event while watching cert file: " ++ showError e)] }, .again)
  | .keyErrors e =>
    ({ w with trace := w.trace ++
        [Effect.logError ("error event while watching key file: " ++ showError e)] }, .again)
  | .stopCh =>
    ({ w with fw := w.fw.map FileWatcher.Close, watching := false,
              trace := w.trace ++ [Effect.logDebug "stopping watch of certificate file changes"] },
     .returned)

/-- The method `watch` on a finite run: each input is the case that fired and
the file system at that moment.  The loop stops consuming inputs once an
iteration returns. -/
def watch (E : Env Certificate CertPool) :
    World Certificate CertPool → List (FileSystem × SelectCase) →
      World Certificate CertPool × Control
  | w, [] => (w, .again)
  | w, (fs, sel) :: rest =>
    match watchIter E fs w sel with
    | (w1, .again) => watch E w1 rest
    | (w1, .returned) => (w1, .returned)

/-- The reads a run of the program performed, in order. -/
def readsOf : Trace → List String
  | [] => []
  | Effect.read p :: tr => p :: readsOf tr
  | _ :: tr => readsOf tr

/-- The CA file can be read and at least one certificate of it is appended to
a fresh pool. -/
def caLoads (L : TLSLib Certificate CertPool) (fs : FileSystem) (o : Options) : Prop :=
  ∃ ca, fs o.CACertificateFile = .ok ca ∧ (L.AppendCertsFromPEM L.NewCertPool ca).2 = true

/-- Both files can be read and parse as a matching pair. -/
def pairLoads (L : TLSLib Certificate CertPool) (fs : FileSystem) (o : Options) : Prop :=
  ∃ c k, fs o.CertificateFile = .ok c ∧ fs o.KeyFile = .ok k ∧ (L.X509KeyPair c k).2 = none

/-- The CA file cannot be read, or no certificate of it can be appended to the
pool. -/
def caFails (L : TLSLib Certificate CertPool) (fs : FileSystem) (o : Options) : Prop :=
  (∃ err, fs o.CACertificateFile = .error err) ∨
  (∃ ca, fs o.CACertificateFile = .ok ca ∧ (L.AppendCertsFromPEM L.NewCertPool ca).2 = false)

/-- The certificate file or the key file cannot be read, or the two do not
parse as a matching pair. -/
def pairFails (L : TLSLib Certificate CertPool) (fs : FileSystem) (o : Options) : Prop :=
  (∃ err, fs o.CertificateFile = .error err) ∨
  (∃ err, fs o.KeyFile = .error err) ∨
  (∃ c k, fs o.CertificateFile = .ok c ∧ fs o.KeyFile = .ok k ∧ (L.X509KeyPair c k).2 ≠ none)

/-- An event on the certificate path or on the key path carrying `e`. -/
def isFileEvent (sel : SelectCase) (e : Event) : Prop :=
  sel = .certEvents (some e) ∨ sel = .keyEvents (some e)

/-! ### A small concrete instance, used to run the definitions -/

/-- Toy certificate: the certificate bytes and the key bytes. -/
abbrev ToyCert := Bytes × Bytes

/-- Toy library: a pair matches when both blocks are non-empty and equal; a CA
block is appended when it is non-empty. -/
def toyLib : TLSLib ToyCert (List Bytes) where
  zeroCertificate := ([], [])
  X509KeyPair := fun c k =>
    if c ≠ [] ∧ c = k then ((c, k), none)
    else (([], []), some "tls: private key does not match public key")
  NewCertPool := []
  AppendCertsFromPEM := fun pool ca => if ca = [] then (pool, false) else (pool ++ [ca], true)

/-- Toy environment in which every watch registers and no probe is set. -/
def toyEnv : Env ToyCert (List Bytes) where
  lib := toyLib
  fwAdd := fun _ => none
  watchCertEventHandledProbe := false
  watchKeyEventHandledProbe := false

/-- Toy environment in which the watch on `key.pem` cannot be registered. -/
def toyEnvKeyAddFails : Env ToyCert (List Bytes) where
  lib := toyLib
  fwAdd := fun p => if p = "key.pem" then some "no space left on device" else none
  watchCertEventHandledProbe := false
  watchKeyEventHandledProbe := false

def toyOptions : Options :=
  { CertificateFile := "cert-chain.pem", KeyFile := "key.pem",
    CACertificateFile := "root-cert.pem" }

/-- A file system with a matching pair `[1]`, `[1]` and a CA block. -/
def toyFS : FileSystem := fun p =>
  if p = "cert-chain.pem" then .ok [1]
  else if p = "key.pem" then .ok [1]
  else if p = "root-cert.pem" then .ok [9]
  else .error "no such file"

/-- The same file system after both files were rewritten to the pair `[2]`. -/
def toyFSRotated : FileSystem := fun p =>
  if p = "cert-chain.pem" then .ok [2]
  else if p = "key.pem" then .ok [2]
  else if p = "root-cert.pem" then .ok [9]
  else .error "no such file"

/-- The file system while only the certificate has been rewritten: the pair
does not match. -/
def toyFSTorn : FileSystem := fun p =>
  if p = "cert-chain.pem" then .ok [2]
  else if p = "key.pem" then .ok [1]
  else if p = "root-cert.pem" then .ok [9]
  else .error "no such file"

/-- A file system whose CA file holds no certificate. -/
def toyFSNoCA : FileSystem := fun p =>
  if p = "cert-chain.pem" then .ok [1]
  else if p = "key.pem" then .ok [1]
  else if p = "root-cert.pem" then .ok []
  else .error "no such file"

/-- The toy world after a successful `start` on `toyFS`. -/
def toyStarted : World ToyCert (List Bytes) := (start toyEnv toyFS (newWorld toyEnv toyOptions)).1

end Creds

namespace SDS

open Creds (Bytes GoError)

/-- The struct `SecretItem`, with the fields the test builds it from. -/
structure SecretItem where
  CertificateChain : Bytes
  PrivateKey : Bytes
  SpiffeID : String
  deriving DecidableEq, Repr

/-- The message `core.DataSource` with the `InlineBytes` specifier, as
`verifySDSSResponse` builds it. -/
structure DataSource where
  InlineBytes : Bytes
  deriving DecidableEq, Repr

/-- The message `authapi.TlsCertificate`. -/
structure TlsCertificate where
  CertificateChain : DataSource
  PrivateKey : DataSource
  deriving DecidableEq, Repr

/-- The message `authapi.Secret` of type `Secret_TlsCertificate`. -/
structure Secret where
  Name : String
  TlsCertificate : TlsCertificate
  deriving DecidableEq, Repr

/-- The protobuf envelope of a resource: `types.MarshalAny` and
`types.UnmarshalAny` are library code, taken as parameters. -/
structure AnyCodec (Any : Type) where
  MarshalAny : Secret → Any
  UnmarshalAny : Any → Option Secret

/-- The message `core.Node`. -/
structure Node where
  Id : String
  deriving DecidableEq, Repr

/-- The message `api.DiscoveryRequest`. -/
structure DiscoveryRequest where
  ResourceNames : List String
  Node : Node
  deriving DecidableEq, Repr

/-- The message `api.DiscoveryResponse`. -/
structure DiscoveryResponse (Any : Type) where
  Resources : List Any

/-- The store contract `GetSecret(ctx, proxyID, spiffeID, token)`. -/
abbrev SecretStore := String → String → String → Except String SecretItem

def fakeCertificateChain : Bytes := [1]

def fakePrivateKey : Bytes := [2]

def fakePushCertificateChain : Bytes := [3]

def fakePushPrivateKey : Bytes := [4]

def fakeCredentialToken : String := "faketoken"

def fakeSpiffeID : String := "spiffe://cluster.local/ns/bar/sa/foo"

/-- The method `GetSecret` of `mockSecretStore` in the test.  The two error
texts are formatted with the verb `%q` of package `fmt` (Go-syntax quoting,
library code), which is the parameter `q`. -/
def mockSecretStore (q : String → String) : SecretStore := fun _proxyID spiffeID token =>
  if token ≠ fakeCredentialToken then .error ("unexpected token " ++ q token)
  else if spiffeID ≠ fakeSpiffeID then .error ("unexpected spiffeID " ++ q spiffeID)
  else .ok { CertificateChain := fakeCertificateChain, PrivateKey := fakePrivateKey,
             SpiffeID := spiffeID }

/-- Modelled from the spec: the wire-translation rule of the discovery server
(`sdsservice.go` is not among the sources): an item with identity `I`, chain
`C` and key `K` becomes a named TLS-certificate object with name `I` whose
data sources are the raw bytes `C` and `K`. -/
def toSecret (s : SecretItem) : Secret :=
  { Name := s.SpiffeID,
    TlsCertificate := { CertificateChain := { InlineBytes := s.CertificateChain },
                        PrivateKey := { InlineBytes := s.PrivateKey } } }

/-- Modelled from the spec: reading a decoded resource back as an item. -/
def ofSecret (pb : Secret) : SecretItem :=
  { CertificateChain := pb.TlsCertificate.CertificateChain.InlineBytes,
    PrivateKey := pb.TlsCertificate.PrivateKey.InlineBytes,
    SpiffeID := pb.Name }

/-- Modelled from the spec: the response envelope of the discovery server: an
item becomes exactly one resource entry. -/
def sdsDiscoveryResponse {Any : Type} (codec : AnyCodec Any) (s : SecretItem) :
    DiscoveryResponse Any :=
  { Resources := [codec.MarshalAny (toSecret s)] }

/-- Modelled from the spec: the one-shot operation Fetch of the discovery
server: token from the call metadata (`none` when the header is absent),
identity from `resourceNames[0]`, node id from `node.id`, then the store; a
store failure is returned as the error. -/
def FetchSecrets {Any : Type} (codec : AnyCodec Any) (st : SecretStore)
    (token : Option String) (req : DiscoveryRequest) : Except String (DiscoveryResponse Any) :=
  match token with
  | none => .error "unable to get credential token from call metadata"
  | some t =>
    match req.ResourceNames with
    | [] => .error "no resource name in the request"
    | spiffeID :: _ =>
      match st req.Node.Id spiffeID t with
      | .error e => .error e
      | .ok s => .ok (sdsDiscoveryResponse codec s)

/-- A signal on a session's delivery channel: an item to push, or `none`, the
sentinel that closes the session. -/
abbrev Signal := Option SecretItem

/-- Modelled from the spec: a session of the discovery server: the node id and
the delivery channel with the signals not yet handled, oldest first. -/
structure Session where
  nodeId : String
  channel : List Signal
  deriving DecidableEq, Repr

/-- What the server did on the peer-facing stream of a node. -/
inductive WireEvent (Any : Type) where
  /-- a response written to the stream of the node -/
  | response (nodeId : String) (resp : DiscoveryResponse Any)
  /-- the stream of the node ended by the server, with the error given to the peer -/
  | ended (nodeId : String) (err : GoError)

/-- Modelled from the spec: the state of the discovery server: the session
registry and what was done on the streams so far. -/
structure Server (Any : Type) where
  registry : List Session
  wire : List (WireEvent Any)

/-- Modelled from the spec: the session registered for a node id, if any. -/
def lookup (nodeId : String) : List Session → Option Session
  | [] => none
  | s :: rest => if s.nodeId = nodeId then some s else lookup nodeId rest

/-- Modelled from the spec: unregister, which removes the session of a node id
and is idempotent. -/
def unregister (nodeId : String) (reg : List Session) : List Session :=
  reg.filter (fun s => decide (s.nodeId ≠ nodeId))

/-- Modelled from the spec: register; a session already present for the node
id is replaced. -/
def register (nodeId : String) (reg : List Session) : List Session :=
  { nodeId := nodeId, channel := [] } :: unregister nodeId reg

/-- Applies `f` to the channel of the session `lookup` finds. -/
def onChannel (nodeId : String) (f : List Signal → List Signal) : List Session → List Session
  | [] => []
  | s :: rest =>
    if s.nodeId = nodeId then { s with channel := f s.channel } :: rest
    else s :: onChannel nodeId f rest

/-- Modelled from the spec: the long-lived operation Stream up to its initial
response: the same resolution and fetch as Fetch, then the session is
registered under the node id and the initial response written. -/
def StreamSecrets {Any : Type} (codec : AnyCodec Any) (st : SecretStore) (srv : Server Any)
    (token : Option String) (req : DiscoveryRequest) : Server Any × GoError :=
  match token with
  | none => (srv, some "unable to get credential token from call metadata")
  | some t =>
    match req.ResourceNames with
    | [] => (srv, some "no resource name in the request")
    | spiffeID :: _ =>
      match st req.Node.Id spiffeID t with
      | .error e => (srv, some e)
      | .ok s =>
        ({ registry := register req.Node.Id srv.registry,
           wire := srv.wire ++ [WireEvent.response req.Node.Id (sdsDiscoveryResponse codec s)] },
         none)

/-- Modelled from the spec: the push entry point `NotifyProxy`: with a session
for the node id the item (or the close sentinel for nil) is put on its
channel; without one the call is a no-op.  Neither case is an error. -/
def NotifyProxy {Any : Type} (srv : Server Any) (nodeId : String) (secret : Option SecretItem) :
    Server Any × GoError :=
  match lookup nodeId srv.registry with
  | none => (srv, none)
  | some _ =>
    ({ srv with registry := onChannel nodeId (fun ch => ch ++ [secret]) srv.registry }, none)

/-- Modelled from the spec: one step of the stream handler of a node: it takes
the oldest signal from the channel; an item is written to the peer as a
response, the sentinel ends the stream without error and unregisters the
session.  Without a session or a pending signal nothing happens. -/
def deliver {Any : Type} (codec : AnyCodec Any) (srv : Server Any) (nodeId : String) :
    Server Any :=
  match lookup nodeId srv.registry with
  | none => srv
  | some sess =>
    match sess.channel with
    | [] => srv
    | some item :: _ =>
      { registry := onChannel nodeId List.tail srv.registry,
        wire := srv.wire ++ [WireEvent.response nodeId (sdsDiscoveryResponse codec item)] }
    | none :: _ =>
      { registry := unregister nodeId srv.registry,
        wire := srv.wire ++ [WireEvent.ended nodeId none] }

/-- The handler of a node running for `n` steps. -/
def deliverN {Any : Type} (codec : AnyCodec Any) : Nat → Server Any → String → Server Any
  | 0, srv, _ => srv
  | n + 1, srv, nodeId => deliverN codec n (deliver codec srv nodeId) nodeId

/-- Number of signals waiting on the channel of a node. -/
def pending (nodeId : String) (reg : List Session) : Nat :=
  match lookup nodeId reg with
  | none => 0
  | some sess => sess.channel.length

/-- The streams the server ended, in order. -/
def endedStreams {Any : Type} : List (WireEvent Any) → List (String × GoError)
  | [] => []
  | WireEvent.ended n e :: rest => (n, e) :: endedStreams rest
  | WireEvent.response _ _ :: rest => endedStreams rest

/-- The responses written to the stream of a node, in order. -/
def responsesTo {Any : Type} (nodeId : String) : List (WireEvent Any) → List (DiscoveryResponse Any)
  | [] => []
  | WireEvent.response n r :: rest =>
    if n = nodeId then r :: responsesTo nodeId rest else responsesTo nodeId rest
  | WireEvent.ended _ _ :: rest => responsesTo nodeId rest

/-- The decoding step of `verifySDSSResponse`: `types.UnmarshalAny` on
`resp.Resources[0]`. -/
def decodeFirst {Any : Type} (codec : AnyCodec Any) (resp : DiscoveryResponse Any) :
    Option Secret :=
  match resp.Resources with
  | [] => none
  | r :: _ => codec.UnmarshalAny r

/-- The value `expectedResponseSecret` that `verifySDSSResponse` builds. -/
def expectedResponseSecret (expectedPrivateKey expectedCertChain : Bytes) : Secret :=
  { Name := fakeSpiffeID,
    TlsCertificate := { CertificateChain := { InlineBytes := expectedCertChain },
                        PrivateKey := { InlineBytes := expectedPrivateKey } } }

/-- The check of `verifySDSSResponse`: the first resource decodes, and the
decoded secret is deeply equal to the expected one. -/
def verifySDSSResponse {Any : Type} (codec : AnyCodec Any) (resp : DiscoveryResponse Any)
    (expectedPrivateKey expectedCertChain : Bytes) : Bool :=
  match decodeFirst codec resp with
  | none => false
  | some pb => decide (pb = expectedResponseSecret expectedPrivateKey expectedCertChain)

/-- The server after `NotifyProxy(nodeId, nil)` and `n` steps of the handler of
that node. -/
def afterRevoke {Any : Type} (codec : AnyCodec Any) (n : Nat) (srv : Server Any)
    (nodeId : String) : Server Any :=
  deliverN codec n (NotifyProxy srv nodeId none).1 nodeId

/-! ### A small concrete instance, used to run the definitions -/

/-- Toy envelope: a type URL and the message. -/
structure ToyAny where
  TypeUrl : String
  Value : Secret
  deriving DecidableEq, Repr

def secretTypeUrl : String := "type.googleapis.com/envoy.api.v2.auth.Secret"

/-- Toy codec: decoding checks the type URL. -/
def toyCodec : AnyCodec ToyAny where
  MarshalAny := fun pb => { TypeUrl := secretTypeUrl, Value := pb }
  UnmarshalAny := fun a => if a.TypeUrl = secretTypeUrl then some a.Value else none

/-- Toy quoting: the text between double quotes, which is what `%q` gives for
a text without quotes, backslashes and unprintable characters. -/
def toyQuote (s : String) : String :=
  String.singleton (Char.ofNat 34) ++ s ++ String.singleton (Char.ofNat 34)

def proxyID : String := "sidecar~127.0.0.1~id2~local"

/-- The request of the test. -/
def testRequest : DiscoveryRequest :=
  { ResourceNames := [fakeSpiffeID], Node := { Id := proxyID } }

/-- The server of the test after the stream of `proxyID` was opened. -/
def testServer : Server ToyAny :=
  (StreamSecrets toyCodec (mockSecretStore toyQuote) { registry := [], wire := [] }
    (some fakeCredentialToken) testRequest).1

end SDS

/-! ## Theorems: the credential watcher -/

namespace Creds

variable {Certificate CertPool : Type}

theorem and_write_iff (op : Nat) : op &&& Write = Write ↔ op.testBit 1 = true := by
  constructor
  · intro h
    have h1 : (op &&& Write).testBit 1 = true := by rw [h]; decide
    rw [Nat.testBit_and, Bool.and_eq_true] at h1
    exact h1.1
  · intro h
    apply Nat.eq_of_testBit_eq
    intro i
    have h2 : (2 : Nat) = 2 ^ 1 := rfl
    rw [Nat.testBit_and]
    show (op.testBit i && Nat.testBit 2 i) = Nat.testBit 2 i
    rw [h2, Nat.testBit_two_pow]
    by_cases hi : 1 = i
    · subst hi; simp [h]
    · simp [hi]

theorem and_create_iff (op : Nat) : op &&& Create = Create ↔ op.testBit 0 = true := by
  constructor
  · intro h
    have h1 : (op &&& Create).testBit 0 = true := by rw [h]; decide
    rw [Nat.testBit_and, Bool.and_eq_true] at h1
    exact h1.1
  · intro h
    apply Nat.eq_of_testBit_eq
    intro i
    have h2 : (1 : Nat) = 2 ^ 0 := rfl
    rw [Nat.testBit_and]
    show (op.testBit i && Nat.testBit 1 i) = Nat.testBit 1 i
    rw [h2, Nat.testBit_two_pow]
    by_cases hi : 0 = i
    · subst hi; simp [h]
    · simp [hi]

theorem createOrWrite_iff (op : Nat) :
    (op &&& Write = Write ∨ op &&& Create = Create) ↔
      (op.testBit 1 = true ∨ op.testBit 0 = true) := by
  rw [and_write_iff, and_create_iff]

theorem readsOf_append (a b : Trace) : readsOf (a ++ b) = readsOf a ++ readsOf b := by
  induction a with
  | nil => rfl
  | cons x xs ih => cases x <;> simp [readsOf, ih]

theorem loadCertPair_of_ok (L : TLSLib Certificate CertPool) (fs : FileSystem)
    (cf kf : String) (tr : Trace) (c k : Bytes) (hc : fs cf = .ok c) (hk : fs kf = .ok k)
    (hp : (L.X509KeyPair c k).2 = none) :
    loadCertPair L fs cf kf tr
      = (((L.X509KeyPair c k).1, none), tr ++ [Effect.read cf] ++ [Effect.read kf]) := by
  unfold loadCertPair readFile
  simp only [hc, hk]
  rcases hx : L.X509KeyPair c k with ⟨cert, err⟩
  rw [hx] at hp
  simp only at hp
  subst hp
  rfl

theorem loadCertPair_of_certErr (L : TLSLib Certificate CertPool) (fs : FileSystem)
    (cf kf : String) (tr : Trace) (err : String) (hc : fs cf = .error err) :
    loadCertPair L fs cf kf tr = ((L.zeroCertificate, some err), tr ++ [Effect.read cf]) := by
  unfold loadCertPair readFile
  simp only [hc]

theorem loadCertPair_of_keyErr (L : TLSLib Certificate CertPool) (fs : FileSystem)
    (cf kf : String) (tr : Trace) (c : Bytes) (err : String) (hc : fs cf = .ok c)
    (hk : fs kf = .error err) :
    loadCertPair L fs cf kf tr
      = ((L.zeroCertificate, some err), tr ++ [Effect.read cf] ++ [Effect.read kf]) := by
  unfold loadCertPair readFile
  simp only [hc, hk]

theorem loadCertPair_of_mismatch (L : TLSLib Certificate CertPool) (fs : FileSystem)
    (cf kf : String) (tr : Trace) (c k : Bytes) (hc : fs cf = .ok c) (hk : fs kf = .ok k)
    (hp : (L.X509KeyPair c k).2 ≠ none) :
    ∃ err, loadCertPair L fs cf kf tr
      = (((L.X509KeyPair c k).1, some err), tr ++ [Effect.read cf] ++ [Effect.read kf]) := by
  unfold loadCertPair readFile
  simp only [hc, hk]
  rcases hx : L.X509KeyPair c k with ⟨cert, err⟩
  rw [hx] at hp
  cases err with
  | none => exact absurd rfl hp
  | some e => exact ⟨_, rfl⟩

/-- A failing pair makes `loadCertPair` return an error; the trace grows by the
read of the certificate file and, when that read succeeded, of the key file. -/
theorem loadCertPair_of_pairFails (L : TLSLib Certificate CertPool) (fs : FileSystem)
    (o : Options) (tr : Trace) (h : pairFails L fs o) :
    ∃ cert err tr1, loadCertPair L fs o.CertificateFile o.KeyFile tr = ((cert, some err), tr1) := by
  rcases h with ⟨err, hc⟩ | ⟨err, hk⟩ | ⟨c, k, hc, hk, hp⟩
  · exact ⟨_, _, _, loadCertPair_of_certErr L fs _ _ tr err hc⟩
  · cases hc : fs o.CertificateFile with
    | error e => exact ⟨_, _, _, loadCertPair_of_certErr L fs _ _ tr e hc⟩
    | ok c => exact ⟨_, _, _, loadCertPair_of_keyErr L fs _ _ tr c err hc hk⟩
  · obtain ⟨err, he⟩ := loadCertPair_of_mismatch L fs _ _ tr c k hc hk hp
    exact ⟨_, _, _, he⟩

theorem pairFails_or_pairLoads (L : TLSLib Certificate CertPool) (fs : FileSystem)
    (o : Options) : pairFails L fs o ∨ pairLoads L fs o := by
  unfold pairFails pairLoads
  cases hc : fs o.CertificateFile with
  | error e => exact Or.inl (Or.inl ⟨e, rfl⟩)
  | ok c =>
    cases hk : fs o.KeyFile with
    | error e => exact Or.inl (Or.inr (Or.inl ⟨e, rfl⟩))
    | ok k =>
      cases hp : (L.X509KeyPair c k).2 with
      | none => exact Or.inr ⟨c, k, rfl, rfl, hp⟩
      | some e => exact Or.inl (Or.inr (Or.inr ⟨c, k, rfl, rfl, by simp [hp]⟩))

theorem not_pairLoads_of_pairFails (L : TLSLib Certificate CertPool) (fs : FileSystem)
    (o : Options) (h : pairFails L fs o) : ¬ pairLoads L fs o := by
  rintro ⟨c, k, hc, hk, hp⟩
  rcases h with ⟨err, hc1⟩ | ⟨err, hk1⟩ | ⟨c1, k1, hc1, hk1, hp1⟩
  · rw [hc] at hc1; cases hc1
  · rw [hk] at hk1; cases hk1
  · rw [hc] at hc1; rw [hk] at hk1
    cases hc1; cases hk1
    exact hp1 hp

/-- What handling a create-or-write event does when the pair fails to load. -/
theorem watchIter_event_fail (E : Env Certificate CertPool) (fs : FileSystem)
    (w : World Certificate CertPool) (sel : SelectCase) (e : Event)
    (hsel : isFileEvent sel e)
    (hop : e.Op.testBit 1 = true ∨ e.Op.testBit 0 = true)
    (hfail : pairFails E.lib fs w.c.options) :
    (watchIter E fs w sel).1.c = w.c ∧ (watchIter E fs w sel).1.fw = w.fw ∧
      (watchIter E fs w sel).1.watching = w.watching ∧
      (watchIter E fs w sel).2 = Control.again := by
  obtain ⟨cert, err, tr1, hl⟩ := loadCertPair_of_pairFails E.lib fs w.c.options w.trace hfail
  have hop1 := (createOrWrite_iff e.Op).2 hop
  rcases hsel with rfl | rfl
  · simp only [watchIter, if_pos hop1, hl]
    cases E.watchCertEventHandledProbe <;> simp
  · simp only [watchIter, if_pos hop1, hl]
    cases E.watchKeyEventHandledProbe <;> simp

/-- What handling a create-or-write event does when the pair loads. -/
theorem watchIter_event_ok (E : Env Certificate CertPool) (fs : FileSystem)
    (w : World Certificate CertPool) (sel : SelectCase) (e : Event) (c k : Bytes)
    (hsel : isFileEvent sel e)
    (hop : e.Op.testBit 1 = true ∨ e.Op.testBit 0 = true)
    (hc : fs w.c.options.CertificateFile = .ok c) (hk : fs w.c.options.KeyFile = .ok k)
    (hp : (E.lib.X509KeyPair c k).2 = none) :
    (watchIter E fs w sel).1.c = w.c.set (E.lib.X509KeyPair c k).1 ∧
      (watchIter E fs w sel).1.fw = w.fw ∧
      (watchIter E fs w sel).1.watching = w.watching ∧
      (watchIter E fs w sel).2 = Control.again ∧
      readsOf (watchIter E fs w sel).1.trace
        = readsOf w.trace ++ [w.c.options.CertificateFile, w.c.options.KeyFile] := by
  have hl := loadCertPair_of_ok E.lib fs _ _ w.trace c k hc hk hp
  have hop1 := (createOrWrite_iff e.Op).2 hop
  rcases hsel with rfl | rfl
  · simp only [watchIter, if_pos hop1, hl]
    cases E.watchCertEventHandledProbe <;> simp [readsOf_append, readsOf]
  · simp only [watchIter, if_pos hop1, hl]
    cases E.watchKeyEventHandledProbe <;> simp [readsOf_append, readsOf]

theorem loadCertPair_reads (L : TLSLib Certificate CertPool) (fs : FileSystem)
    (cf kf : String) (tr : Trace) :
    readsOf (loadCertPair L fs cf kf tr).2
      = readsOf tr ++ (match fs cf with
                       | .ok _ => [cf, kf]
                       | .error _ => [cf]) := by
  cases hc : fs cf with
  | error e =>
    rw [loadCertPair_of_certErr L fs cf kf tr e hc]
    simp [readsOf_append, readsOf]
  | ok c =>
    cases hk : fs kf with
    | error e =>
      rw [loadCertPair_of_keyErr L fs cf kf tr c e hc hk]
      simp [readsOf_append, readsOf]
    | ok k =>
      cases hp : (L.X509KeyPair c k).2 with
      | none =>
        rw [loadCertPair_of_ok L fs cf kf tr c k hc hk hp]
        simp [readsOf_append, readsOf]
      | some e =>
        obtain ⟨err, he⟩ := loadCertPair_of_mismatch L fs cf kf tr c k hc hk (by simp [hp])
        rw [he]
        simp [readsOf_append, readsOf]

/-- The reads of a create-or-write event are those of one `loadCertPair`. -/
theorem watchIter_event_reads (E : Env Certificate CertPool) (fs : FileSystem)
    (w : World Certificate CertPool) (sel : SelectCase) (e : Event)
    (hsel : isFileEvent sel e)
    (hop : e.Op.testBit 1 = true ∨ e.Op.testBit 0 = true) :
    readsOf (watchIter E fs w sel).1.trace
      = readsOf (loadCertPair E.lib fs w.c.options.CertificateFile w.c.options.KeyFile
          w.trace).2 := by
  have hop1 := (createOrWrite_iff e.Op).2 hop
  rcases hl : loadCertPair E.lib fs w.c.options.CertificateFile w.c.options.KeyFile w.trace
    with ⟨⟨cert, err⟩, tr1⟩
  rcases hsel with rfl | rfl
  · simp only [watchIter, if_pos hop1, hl]
    cases err <;> cases E.watchCertEventHandledProbe <;> simp [readsOf_append, readsOf]
  · simp only [watchIter, if_pos hop1, hl]
    cases err <;> cases E.watchKeyEventHandledProbe <;> simp [readsOf_append, readsOf]

/-- C1 (last-known-good reload): in every watcher state, so in every state
reached after a successful `start`, when the handled event is a create-or-write
event on the certificate path or on the key path and the pair fails to reload
(a file cannot be read or the two do not parse as a matching pair), `get`
returns afterwards what it returned before, and the loop goes on with another
iteration, the goroutine still running. -/
theorem C1_last_known_good (E : Env Certificate CertPool) (fs : FileSystem)
    (w : World Certificate CertPool) (sel : SelectCase) (e : Event)
    (hsel : isFileEvent sel e)
    (hop : e.Op.testBit 1 = true ∨ e.Op.testBit 0 = true)
    (hfail : pairFails E.lib fs w.c.options) :
    (watchIter E fs w sel).1.c.get = w.c.get ∧
      (watchIter E fs w sel).2 = Control.again ∧
      (watchIter E fs w sel).1.watching = w.watching := by
  obtain ⟨h1, _, h3, h4⟩ := watchIter_event_fail E fs w sel e hsel hop hfail
  exact ⟨by rw [h1], h4, h3⟩

theorem C1_last_known_good_witness :
    isFileEvent (.keyEvents (some ⟨"key.pem", Write⟩)) ⟨"key.pem", Write⟩ ∧
    (Write.testBit 1 = true ∨ Write.testBit 0 = true) ∧
    pairFails toyEnv.lib toyFSTorn toyStarted.c.options ∧
    toyStarted.c.get = ([1], [1]) ∧
    ((watchIter toyEnv toyFSTorn toyStarted (.keyEvents (some ⟨"key.pem", Write⟩))).1.c.get
        = toyStarted.c.get ∧
      (watchIter toyEnv toyFSTorn toyStarted (.keyEvents (some ⟨"key.pem", Write⟩))).2
        = Control.again ∧
      (watchIter toyEnv toyFSTorn toyStarted (.keyEvents (some ⟨"key.pem", Write⟩))).1.watching
        = toyStarted.watching) :=
  ⟨Or.inr rfl, Or.inl (by decide),
   Or.inr (Or.inr ⟨[2], [1], rfl, rfl, by decide⟩), by decide,
   C1_last_known_good toyEnv toyFSTorn toyStarted (.keyEvents (some ⟨"key.pem", Write⟩))
     ⟨"key.pem", Write⟩ (Or.inr rfl) (Or.inl (by decide))
     (Or.inr (Or.inr ⟨[2], [1], rfl, rfl, by decide⟩))⟩

/-- C2 (reload as a pair): for every event whose Op has the Write bit or the
Create bit set, whatever other bits it carries, on the certificate path or on
the key path, the loop performs one `loadCertPair` over both configured paths:
it reads the certificate file and then the key file (the load has already
failed when the certificate cannot be read, and only then is the key file not
opened).  When both files are readable and parse as a matching pair, both were
read and `get` returns afterwards exactly the pair parsed from their current
contents. -/
theorem C2_reload_as_pair (E : Env Certificate CertPool) (fs : FileSystem)
    (w : World Certificate CertPool) (sel : SelectCase) (e : Event)
    (hsel : isFileEvent sel e)
    (hop : e.Op.testBit 1 = true ∨ e.Op.testBit 0 = true) :
    readsOf (watchIter E fs w sel).1.trace
        = readsOf w.trace ++ (match fs w.c.options.CertificateFile with
                              | .ok _ => [w.c.options.CertificateFile, w.c.options.KeyFile]
                              | .error _ => [w.c.options.CertificateFile]) ∧
      ∀ c k, fs w.c.options.CertificateFile = .ok c → fs w.c.options.KeyFile = .ok k →
        (E.lib.X509KeyPair c k).2 = none →
          (watchIter E fs w sel).1.c.get = (E.lib.X509KeyPair c k).1 ∧
          readsOf (watchIter E fs w sel).1.trace
            = readsOf w.trace ++ [w.c.options.CertificateFile, w.c.options.KeyFile] := by
  refine ⟨?_, ?_⟩
  · rw [watchIter_event_reads E fs w sel e hsel hop, loadCertPair_reads]
  · intro c k hc hk hp
    obtain ⟨h1, _, _, _, h5⟩ := watchIter_event_ok E fs w sel e c k hsel hop hc hk hp
    exact ⟨by rw [h1]; rfl, h5⟩

theorem C2_reload_as_pair_witness :
    isFileEvent (.certEvents (some ⟨"cert-chain.pem", Write + Chmod⟩))
      ⟨"cert-chain.pem", Write + Chmod⟩ ∧
    ((Write + Chmod).testBit 1 = true ∨ (Write + Chmod).testBit 0 = true) ∧
    toyStarted.c.get = ([1], [1]) ∧
    (watchIter toyEnv toyFSRotated toyStarted
        (.certEvents (some ⟨"cert-chain.pem", Write + Chmod⟩))).1.c.get = ([2], [2]) :=
  ⟨Or.inl rfl, Or.inl (by decide), by decide,
   ((C2_reload_as_pair toyEnv toyFSRotated toyStarted
      (.certEvents (some ⟨"cert-chain.pem", Write + Chmod⟩)) ⟨"cert-chain.pem", Write + Chmod⟩
      (Or.inl rfl) (Or.inl (by decide))).2 [2] [2] rfl rfl (by decide)).1⟩

/-- C9 (watch-loop exits): one iteration of the loop returns exactly when the
stop signal fired or the receive on the event channel of the certificate path
or of the key path found it closed; it goes on with another iteration exactly
on a file event or a watcher error event of either path; and on the stop
signal the file watcher the loop was given is closed, no watch being left, the
goroutine is over and the iteration returns. -/
theorem C9_watch_exits (E : Env Certificate CertPool) (fs : FileSystem)
    (w : World Certificate CertPool) (sel : SelectCase) :
    ((watchIter E fs w sel).2 = Control.returned ↔
        (sel = .stopCh ∨ sel = .certEvents none ∨ sel = .keyEvents none)) ∧
      ((watchIter E fs w sel).2 = Control.again ↔
        ((∃ e, isFileEvent sel e) ∨ (∃ err, sel = .certErrors err ∨ sel = .keyErrors err))) ∧
      (watchIter E fs w .stopCh).2 = Control.returned ∧
      (watchIter E fs w .stopCh).1.fw = w.fw.map FileWatcher.Close ∧
      (watchIter E fs w .stopCh).1.watching = false ∧
      (∀ fw ∈ (watchIter E fs w .stopCh).1.fw, fw.closed = true ∧ fw.watched = []) ∧
      (watchIter E fs w .stopCh).1.c = w.c := by
  refine ⟨?_, ?_, rfl, rfl, rfl, ?_, rfl⟩
  · cases sel with
    | certEvents r => cases r <;> simp [watchIter]
    | keyEvents r => cases r <;> simp [watchIter]
    | certErrors e => simp [watchIter]
    | keyErrors e => simp [watchIter]
    | stopCh => simp [watchIter]
  · cases sel with
    | certEvents r => cases r <;> simp [watchIter, isFileEvent]
    | keyEvents r => cases r <;> simp [watchIter, isFileEvent]
    | certErrors e => simp [watchIter, isFileEvent]
    | keyErrors e => simp [watchIter, isFileEvent]
    | stopCh => simp [watchIter, isFileEvent]
  · intro fw hfw
    simp only [watchIter, Option.mem_def, Option.map_eq_some'] at hfw
    obtain ⟨fw0, _, rfl⟩ := hfw
    exact ⟨rfl, rfl⟩

/-- C10 (events that are not create-or-write are inert): for every file event
on the certificate or key path whose Op has neither the Write bit nor the
Create bit, and for every watcher error event, handling it reads no file and
leaves the watcher struct (certificate slot, trust pool, configured paths), the
file watcher and the running goroutine as they were; the loop goes on. -/
theorem C10_inert_events (E : Env Certificate CertPool) (fs : FileSystem)
    (w : World Certificate CertPool) (sel : SelectCase)
    (h : (∃ e, isFileEvent sel e ∧ e.Op.testBit 1 = false ∧ e.Op.testBit 0 = false) ∨
         (∃ err, sel = .certErrors err ∨ sel = .keyErrors err)) :
    (watchIter E fs w sel).1.c = w.c ∧
      (watchIter E fs w sel).1.c.get = w.c.get ∧
      readsOf (watchIter E fs w sel).1.trace = readsOf w.trace ∧
      (watchIter E fs w sel).1.fw = w.fw ∧
      (watchIter E fs w sel).1.watching = w.watching ∧
      (watchIter E fs w sel).2 = Control.again := by
  rcases h with ⟨e, hsel, h1, h0⟩ | ⟨err, rfl | rfl⟩
  · have hop1 : ¬ (e.Op &&& Write = Write ∨ e.Op &&& Create = Create) := by
      rw [createOrWrite_iff]
      simp [h1, h0]
    rcases hsel with rfl | rfl
    · simp only [watchIter, if_neg hop1]
      cases E.watchCertEventHandledProbe <;> simp [readsOf_append, readsOf]
    · simp only [watchIter, if_neg hop1]
      cases E.watchKeyEventHandledProbe <;> simp [readsOf_append, readsOf]
  · simp [watchIter, readsOf_append, readsOf]
  · simp [watchIter, readsOf_append, readsOf]

theorem C10_inert_events_witness :
    ((∃ e, isFileEvent (.certEvents (some ⟨"cert-chain.pem", Remove + Chmod⟩)) e ∧
        e.Op.testBit 1 = false ∧ e.Op.testBit 0 = false) ∨
      (∃ err, SelectCase.certEvents (some ⟨"cert-chain.pem", Remove + Chmod⟩) = .certErrors err ∨
        SelectCase.certEvents (some ⟨"cert-chain.pem", Remove + Chmod⟩) = .keyErrors err)) ∧
    (watchIter toyEnv toyFSRotated toyStarted
        (.certEvents (some ⟨"cert-chain.pem", Remove + Chmod⟩))).1.c.get = ([1], [1]) :=
  ⟨Or.inl ⟨⟨"cert-chain.pem", Remove + Chmod⟩, Or.inl rfl, by decide, by decide⟩,
   (C10_inert_events toyEnv toyFSRotated toyStarted
      (.certEvents (some ⟨"cert-chain.pem", Remove + Chmod⟩))
      (Or.inl ⟨⟨"cert-chain.pem", Remove + Chmod⟩, Or.inl rfl, by decide, by decide⟩)).2.1⟩

theorem loadCACert_of_ok (L : TLSLib Certificate CertPool) (fs : FileSystem)
    (caf : String) (tr : Trace) (ca : Bytes) (hca : fs caf = .ok ca)
    (hp : (L.AppendCertsFromPEM L.NewCertPool ca).2 = true) :
    loadCACert L fs caf tr
      = ((some (L.AppendCertsFromPEM L.NewCertPool ca).1, none), tr ++ [Effect.read caf]) := by
  unfold loadCACert readFile
  simp only [hca]
  rcases hx : L.AppendCertsFromPEM L.NewCertPool ca with ⟨pool, ok⟩
  rw [hx] at hp
  simp only at hp
  subst hp
  rfl

theorem loadCACert_of_caFails (L : TLSLib Certificate CertPool) (fs : FileSystem)
    (o : Options) (tr : Trace) (h : caFails L fs o) :
    ∃ err, loadCACert L fs o.CACertificateFile tr
      = ((none, some err), tr ++ [Effect.read o.CACertificateFile]) := by
  rcases h with ⟨err, hca⟩ | ⟨ca, hca, hp⟩
  · unfold loadCACert readFile
    simp only [hca]
    exact ⟨_, rfl⟩
  · unfold loadCACert readFile
    simp only [hca]
    rcases hx : L.AppendCertsFromPEM L.NewCertPool ca with ⟨pool, ok⟩
    rw [hx] at hp
    simp only at hp
    subst hp
    exact ⟨_, rfl⟩

theorem caFails_or_caLoads (L : TLSLib Certificate CertPool) (fs : FileSystem)
    (o : Options) : caFails L fs o ∨ caLoads L fs o := by
  unfold caFails caLoads
  cases hca : fs o.CACertificateFile with
  | error e => exact Or.inl (Or.inl ⟨e, rfl⟩)
  | ok ca =>
    cases hp : (L.AppendCertsFromPEM L.NewCertPool ca).2 with
    | false => exact Or.inl (Or.inr ⟨ca, rfl, hp⟩)
    | true => exact Or.inr ⟨ca, rfl, hp⟩

theorem loadCertPair_none_inv (L : TLSLib Certificate CertPool) (fs : FileSystem)
    (o : Options) (tr : Trace) (cert : Certificate)
    (h : (loadCertPair L fs o.CertificateFile o.KeyFile tr).1 = (cert, none)) :
    ∃ c k, fs o.CertificateFile = .ok c ∧ fs o.KeyFile = .ok k ∧
      L.X509KeyPair c k = (cert, none) := by
  rcases pairFails_or_pairLoads L fs o with hf | ⟨c, k, hc, hk, hp⟩
  · obtain ⟨cert1, err, tr1, hl⟩ := loadCertPair_of_pairFails L fs o tr hf
    rw [hl] at h
    cases h
  · rw [loadCertPair_of_ok L fs _ _ tr c k hc hk hp] at h
    refine ⟨c, k, hc, hk, ?_⟩
    simp only [Prod.mk.injEq, and_true] at h
    exact Prod.ext h hp

/-- What `start` returns when everything loads and both watches register. -/
theorem start_of_ok (E : Env Certificate CertPool) (fs : FileSystem)
    (w : World Certificate CertPool) (ca c k : Bytes)
    (hca : fs w.c.options.CACertificateFile = .ok ca)
    (hpool : (E.lib.AppendCertsFromPEM E.lib.NewCertPool ca).2 = true)
    (hc : fs w.c.options.CertificateFile = .ok c) (hk : fs w.c.options.KeyFile = .ok k)
    (hp : (E.lib.X509KeyPair c k).2 = none)
    (hadd1 : E.fwAdd w.c.options.CertificateFile = none)
    (hadd2 : E.fwAdd w.c.options.KeyFile = none) :
    (start E fs w).2 = none ∧
      (start E fs w).1.c = { options := w.c.options, cert := (E.lib.X509KeyPair c k).1,
                             caCertPool := some (E.lib.AppendCertsFromPEM E.lib.NewCertPool ca).1 } ∧
      (start E fs w).1.fw
        = some { watched := [w.c.options.CertificateFile, w.c.options.KeyFile], closed := false } ∧
      (start E fs w).1.watching = true := by
  unfold start
  simp only [loadCACert_of_ok E.lib fs _ w.trace ca hca hpool,
    loadCertPair_of_ok E.lib fs _ _ _ c k hc hk hp, FileWatcher.Add, CertificateWatcher.set,
    hadd1, hadd2, newFileWatcher]
  simp

/-- Any of the failure causes makes `start` return an error without launching
the loop. -/
theorem start_of_failure (E : Env Certificate CertPool) (fs : FileSystem)
    (w : World Certificate CertPool)
    (h : caFails E.lib fs w.c.options ∨ pairFails E.lib fs w.c.options ∨
         E.fwAdd w.c.options.CertificateFile ≠ none ∨ E.fwAdd w.c.options.KeyFile ≠ none) :
    ∃ err, (start E fs w).2 = some err ∧ (start E fs w).1.watching = w.watching ∧
      (start E fs w).1.c.caCertPool = w.c.caCertPool ∧
      (start E fs w).1.c.options = w.c.options := by
  rcases hl1 : loadCACert E.lib fs w.c.options.CACertificateFile w.trace with ⟨⟨pool, e1⟩, tr1⟩
  cases e1 with
  | some err =>
    refine ⟨err, ?_⟩
    simp [start, hl1]
  | none =>
    rcases hl2 : loadCertPair E.lib fs w.c.options.CertificateFile w.c.options.KeyFile tr1
      with ⟨⟨cert, e2⟩, tr2⟩
    cases e2 with
    | some err =>
      refine ⟨err, ?_⟩
      simp [start, hl1, hl2]
    | none =>
      cases ha1 : E.fwAdd w.c.options.CertificateFile with
      | some err =>
        refine ⟨err, ?_⟩
        simp [start, hl1, hl2, FileWatcher.Add, CertificateWatcher.set, ha1]
      | none =>
        cases ha2 : E.fwAdd w.c.options.KeyFile with
        | some err =>
          refine ⟨err, ?_⟩
          simp [start, hl1, hl2, FileWatcher.Add, CertificateWatcher.set, ha1, ha2]
        | none =>
          exfalso
          rcases h with h | h | h | h
          · obtain ⟨err, he⟩ := loadCACert_of_caFails E.lib fs w.c.options w.trace h
            rw [he] at hl1
            cases hl1
          · obtain ⟨cert1, err, tr3, he⟩ := loadCertPair_of_pairFails E.lib fs w.c.options tr1 h
            rw [he] at hl2
            cases hl2
          · exact h ha1
          · exact h ha2

/-- C3 (start then get): on every file system whose CA file yields at least
one certificate and whose certificate and key files parse as a matching pair,
with both watch registrations succeeding, `start` returns no error, `get`
returns right afterwards the pair parsed from the two files as they were, the
watcher holds the pool parsed from the CA file, both paths are watched and the
watch loop is launched. -/
theorem C3_start_then_get (E : Env Certificate CertPool) (fs : FileSystem)
    (w : World Certificate CertPool) (ca c k : Bytes)
    (hca : fs w.c.options.CACertificateFile = .ok ca)
    (hpool : (E.lib.AppendCertsFromPEM E.lib.NewCertPool ca).2 = true)
    (hc : fs w.c.options.CertificateFile = .ok c) (hk : fs w.c.options.KeyFile = .ok k)
    (hp : (E.lib.X509KeyPair c k).2 = none)
    (hadd1 : E.fwAdd w.c.options.CertificateFile = none)
    (hadd2 : E.fwAdd w.c.options.KeyFile = none) :
    (start E fs w).2 = none ∧
      (start E fs w).1.c.get = (E.lib.X509KeyPair c k).1 ∧
      (start E fs w).1.c.caCertPool = some (E.lib.AppendCertsFromPEM E.lib.NewCertPool ca).1 ∧
      (start E fs w).1.c.options = w.c.options ∧
      (start E fs w).1.fw
        = some { watched := [w.c.options.CertificateFile, w.c.options.KeyFile], closed := false } ∧
      (start E fs w).1.watching = true := by
  obtain ⟨h1, h2, h3, h4⟩ := start_of_ok E fs w ca c k hca hpool hc hk hp hadd1 hadd2
  refine ⟨h1, ?_, ?_, ?_, h3, h4⟩
  · rw [CertificateWatcher.get, h2]
  · rw [h2]
  · rw [h2]

theorem C3_start_then_get_witness :
    toyFS (newWorld toyEnv toyOptions).c.options.CACertificateFile = .ok [9] ∧
    toyFS (newWorld toyEnv toyOptions).c.options.CertificateFile = .ok [1] ∧
    toyFS (newWorld toyEnv toyOptions).c.options.KeyFile = .ok [1] ∧
    (start toyEnv toyFS (newWorld toyEnv toyOptions)).2 = none ∧
    (start toyEnv toyFS (newWorld toyEnv toyOptions)).1.c.get = ([1], [1]) ∧
    (start toyEnv toyFS (newWorld toyEnv toyOptions)).1.c.caCertPool = some [[9]] :=
  have h := C3_start_then_get toyEnv toyFS (newWorld toyEnv toyOptions) [9] [1] [1]
    rfl (by decide) rfl rfl (by decide) rfl rfl
  ⟨rfl, rfl, rfl, h.1, h.2.1, h.2.2.1⟩

/-- C4 (start fails closed): when the CA file cannot be read or yields no
certificate for the pool, or the certificate or key file cannot be read or the
two do not parse as a matching pair, or the watch on the certificate path or on
the key path cannot be registered, `start` returns an error and does not
launch the watch loop, and `WatchFiles` returns a nil watcher together with
that error, no loop running. -/
theorem C4_start_fails_closed (E : Env Certificate CertPool) (fs : FileSystem) (o : Options)
    (h : caFails E.lib fs o ∨ pairFails E.lib fs o ∨
         E.fwAdd o.CertificateFile ≠ none ∨ E.fwAdd o.KeyFile ≠ none) :
    (∀ w : World Certificate CertPool, w.c.options = o →
        ∃ err, (start E fs w).2 = some err ∧ (start E fs w).1.watching = w.watching) ∧
      ∃ err, (start E fs (newWorld E o)).2 = some err ∧
        (WatchFiles E fs o).1 = (none, some err) ∧
        (WatchFiles E fs o).2.watching = false := by
  constructor
  · intro w hw
    subst hw
    obtain ⟨err, h1, h2, _, _⟩ := start_of_failure E fs w h
    exact ⟨err, h1, h2⟩
  · obtain ⟨err, h1, h2, _, _⟩ := start_of_failure E fs (newWorld E o) h
    refine ⟨err, h1, ?_, ?_⟩
    · unfold WatchFiles
      rcases hs : start E fs (newWorld E o) with ⟨w1, e⟩
      rw [hs] at h1
      simp only at h1
      subst h1
      rfl
    · unfold WatchFiles
      rcases hs : start E fs (newWorld E o) with ⟨w1, e⟩
      rw [hs] at h1 h2
      simp only at h1 h2
      subst h1
      exact h2

theorem C4_start_fails_closed_witness :
    (caFails toyEnv.lib toyFSNoCA toyOptions ∨ pairFails toyEnv.lib toyFSNoCA toyOptions ∨
      toyEnv.fwAdd toyOptions.CertificateFile ≠ none ∨ toyEnv.fwAdd toyOptions.KeyFile ≠ none) ∧
    ∃ err, (start toyEnv toyFSNoCA (newWorld toyEnv toyOptions)).2 = some err ∧
      (WatchFiles toyEnv toyFSNoCA toyOptions).1 = (none, some err) ∧
      (WatchFiles toyEnv toyFSNoCA toyOptions).2.watching = false :=
  ⟨Or.inl (Or.inr ⟨[], rfl, by decide⟩),
   (C4_start_fails_closed toyEnv toyFSNoCA toyOptions (Or.inl (Or.inr ⟨[], rfl, by decide⟩))).2⟩

/-- C5, as stated, fails: with a valid CA file and a valid pair on disk and the
watch on the key path refused, `start` returns an error, yet the certificate
slot no longer holds what it held before the call and the watch on the
certificate path is still registered. -/
theorem C5_counterexample :
    (start toyEnvKeyAddFails toyFS (newWorld toyEnvKeyAddFails toyOptions)).2
        = some "no space left on device" ∧
      (newWorld toyEnvKeyAddFails toyOptions).c.get = ([], []) ∧
      (start toyEnvKeyAddFails toyFS (newWorld toyEnvKeyAddFails toyOptions)).1.c.get
        = ([1], [1]) ∧
      (start toyEnvKeyAddFails toyFS (newWorld toyEnvKeyAddFails toyOptions)).1.fw
        = some { watched := ["cert-chain.pem"], closed := false } ∧
      ¬ ((start toyEnvKeyAddFails toyFS (newWorld toyEnvKeyAddFails toyOptions)).1.c.get
            = (newWorld toyEnvKeyAddFails toyOptions).c.get ∧
          (start toyEnvKeyAddFails toyFS (newWorld toyEnvKeyAddFails toyOptions)).1.c.caCertPool
            = (newWorld toyEnvKeyAddFails toyOptions).c.caCertPool ∧
          ∀ fw ∈ (start toyEnvKeyAddFails toyFS (newWorld toyEnvKeyAddFails toyOptions)).1.fw,
            fw.watched = []) := by
  refine ⟨by decide, by decide, by decide, by decide, ?_⟩
  intro h
  exact absurd h.1 (by decide)

/-- C5, amended: whenever `start` returns an error, the trust pool and the
configured paths are what they were before the call and the watch loop is not
launched; when the error comes from loading the CA file or the pair, the
certificate slot is unchanged as well and no file watcher was made; when the CA
file and the pair load, so that the error comes from registering a watch, the
certificate slot holds the pair parsed from the files. -/
theorem C5_start_error_state (E : Env Certificate CertPool) (fs : FileSystem)
    (w : World Certificate CertPool) (err : String)
    (herr : (start E fs w).2 = some err) :
    (start E fs w).1.c.caCertPool = w.c.caCertPool ∧
      (start E fs w).1.c.options = w.c.options ∧
      (start E fs w).1.watching = w.watching ∧
      ((caFails E.lib fs w.c.options ∨ pairFails E.lib fs w.c.options) →
        (start E fs w).1.c = w.c ∧ (start E fs w).1.fw = w.fw) ∧
      (caLoads E.lib fs w.c.options →
        ∀ c k, fs w.c.options.CertificateFile = .ok c → fs w.c.options.KeyFile = .ok k →
          (E.lib.X509KeyPair c k).2 = none →
            (start E fs w).1.c.get = (E.lib.X509KeyPair c k).1) := by
  rcases hl1 : loadCACert E.lib fs w.c.options.CACertificateFile w.trace with ⟨⟨pool, e1⟩, tr1⟩
  cases e1 with
  | some e =>
    refine ⟨?_, ?_, ?_, ?_, ?_⟩
    · simp [start, hl1]
    · simp [start, hl1]
    · simp [start, hl1]
    · intro _
      simp [start, hl1]
    · rintro ⟨ca, hca, hp⟩
      rw [loadCACert_of_ok E.lib fs _ w.trace ca hca hp] at hl1
      cases hl1
  | none =>
    have hnca : ¬ caFails E.lib fs w.c.options := by
      intro hf
      obtain ⟨e, he⟩ := loadCACert_of_caFails E.lib fs w.c.options w.trace hf
      rw [he] at hl1
      cases hl1
    rcases hl2 : loadCertPair E.lib fs w.c.options.CertificateFile w.c.options.KeyFile tr1
      with ⟨⟨cert, e2⟩, tr2⟩
    cases e2 with
    | some e =>
      refine ⟨?_, ?_, ?_, ?_, ?_⟩
      · simp [start, hl1, hl2]
      · simp [start, hl1, hl2]
      · simp [start, hl1, hl2]
      · intro _
        simp [start, hl1, hl2]
      · intro _ c k hc hk hp
        rw [loadCertPair_of_ok E.lib fs _ _ tr1 c k hc hk hp] at hl2
        cases hl2
    | none =>
      have hnp : ¬ pairFails E.lib fs w.c.options := by
        intro hf
        obtain ⟨cert1, e, tr3, he⟩ := loadCertPair_of_pairFails E.lib fs w.c.options tr1 hf
        rw [he] at hl2
        cases hl2
      have hcert : ∀ c k, fs w.c.options.CertificateFile = .ok c →
          fs w.c.options.KeyFile = .ok k → (E.lib.X509KeyPair c k).2 = none →
            cert = (E.lib.X509KeyPair c k).1 := by
        intro c k hc hk hp
        rw [loadCertPair_of_ok E.lib fs _ _ tr1 c k hc hk hp] at hl2
        simp only [Prod.mk.injEq, and_true] at hl2
        exact hl2.1.symm
      cases ha1 : E.fwAdd w.c.options.CertificateFile with
      | some e =>
        refine ⟨?_, ?_, ?_, ?_, ?_⟩
        · simp [start, hl1, hl2, FileWatcher.Add, CertificateWatcher.set, ha1]
        · simp [start, hl1, hl2, FileWatcher.Add, CertificateWatcher.set, ha1]
        · simp [start, hl1, hl2, FileWatcher.Add, CertificateWatcher.set, ha1]
        · rintro (hf | hf)
          · exact absurd hf hnca
          · exact absurd hf hnp
        · intro _ c k hc hk hp
          simp [start, hl1, hl2, FileWatcher.Add, CertificateWatcher.set, CertificateWatcher.get,
            ha1, hcert c k hc hk hp]
      | none =>
        cases ha2 : E.fwAdd w.c.options.KeyFile with
        | some e =>
          refine ⟨?_, ?_, ?_, ?_, ?_⟩
          · simp [start, hl1, hl2, FileWatcher.Add, CertificateWatcher.set, ha1, ha2]
          · simp [start, hl1, hl2, FileWatcher.Add, CertificateWatcher.set, ha1, ha2]
          · simp [start, hl1, hl2, FileWatcher.Add, CertificateWatcher.set, ha1, ha2]
          · rintro (hf | hf)
            · exact absurd hf hnca
            · exact absurd hf hnp
          · intro _ c k hc hk hp
            simp [start, hl1, hl2, FileWatcher.Add, CertificateWatcher.set,
              CertificateWatcher.get, ha1, ha2, hcert c k hc hk hp]
        | none =>
          exfalso
          simp [start, hl1, hl2, FileWatcher.Add, CertificateWatcher.set, ha1, ha2] at herr

theorem C5_start_error_state_witness :
    (start toyEnvKeyAddFails toyFS (newWorld toyEnvKeyAddFails toyOptions)).2
        = some "no space left on device" ∧
      (start toyEnvKeyAddFails toyFS (newWorld toyEnvKeyAddFails toyOptions)).1.c.caCertPool
        = none ∧
      (start toyEnvKeyAddFails toyFS (newWorld toyEnvKeyAddFails toyOptions)).1.watching
        = false :=
  have h := C5_start_error_state toyEnvKeyAddFails toyFS (newWorld toyEnvKeyAddFails toyOptions)
    "no space left on device" (by decide)
  ⟨by decide, h.1, h.2.2.1⟩

/-- One iteration never touches the configured paths, and the certificate it
leaves in the slot is the old one or the value of a `loadCertPair` call on the
current file system that returned no error. -/
theorem watchIter_slot (E : Env Certificate CertPool) (fs : FileSystem)
    (w : World Certificate CertPool) (sel : SelectCase) :
    (watchIter E fs w sel).1.c.options = w.c.options ∧
      ((watchIter E fs w sel).1.c.cert = w.c.cert ∨
        (loadCertPair E.lib fs w.c.options.CertificateFile w.c.options.KeyFile w.trace).1
          = ((watchIter E fs w sel).1.c.cert, none)) := by
  rcases hl : loadCertPair E.lib fs w.c.options.CertificateFile w.c.options.KeyFile w.trace
    with ⟨⟨cert, err⟩, tr1⟩
  cases sel with
  | certEvents r =>
    cases r with
    | none => simp [watchIter]
    | some e =>
      by_cases hop : e.Op &&& Write = Write ∨ e.Op &&& Create = Create
      · simp only [watchIter, if_pos hop, hl]
        cases err <;> cases E.watchCertEventHandledProbe <;> simp [CertificateWatcher.set]
      · simp only [watchIter, if_neg hop]
        cases E.watchCertEventHandledProbe <;> simp
  | keyEvents r =>
    cases r with
    | none => simp [watchIter]
    | some e =>
      by_cases hop : e.Op &&& Write = Write ∨ e.Op &&& Create = Create
      · simp only [watchIter, if_pos hop, hl]
        cases err <;> cases E.watchKeyEventHandledProbe <;> simp [CertificateWatcher.set]
      · simp only [watchIter, if_neg hop]
        cases E.watchKeyEventHandledProbe <;> simp
  | certErrors e => simp [watchIter]
  | keyErrors e => simp [watchIter]
  | stopCh => simp [watchIter]

/-- The slot after a run of the loop holds a certificate that `X509KeyPair`
returned without error on the files of a file system the run went through,
when that was so at the beginning of the run. -/
theorem watch_slot (E : Env Certificate CertPool) (o : Options) (P : FileSystem → Prop)
    (ins : List (FileSystem × SelectCase)) :
    ∀ w : World Certificate CertPool, w.c.options = o →
      (∀ x ∈ ins, P x.1) →
      (∃ fs c k, P fs ∧ fs o.CertificateFile = .ok c ∧ fs o.KeyFile = .ok k ∧
        E.lib.X509KeyPair c k = (w.c.cert, none)) →
      (watch E w ins).1.c.options = o ∧
      ∃ fs c k, P fs ∧ fs o.CertificateFile = .ok c ∧ fs o.KeyFile = .ok k ∧
        E.lib.X509KeyPair c k = ((watch E w ins).1.c.cert, none) := by
  induction ins with
  | nil =>
    intro w hw _ h
    exact ⟨hw, h⟩
  | cons x rest ih =>
    intro w hw hP h
    obtain ⟨fs, sel⟩ := x
    obtain ⟨ho, hc⟩ := watchIter_slot E fs w sel
    have hstep : ∃ fs1 c k, P fs1 ∧ fs1 o.CertificateFile = .ok c ∧ fs1 o.KeyFile = .ok k ∧
        E.lib.X509KeyPair c k = ((watchIter E fs w sel).1.c.cert, none) := by
      rcases hc with hc | hc
      · rw [hc]; exact h
      · rw [hw] at hc
        obtain ⟨c, k, h1, h2, h3⟩ := loadCertPair_none_inv E.lib fs o w.trace _ hc
        exact ⟨fs, c, k, hP (fs, sel) (List.mem_cons_self _ _), h1, h2, h3⟩
    rcases hr : watchIter E fs w sel with ⟨w1, ctl⟩
    rw [hr] at ho hstep
    simp only at ho hstep
    cases ctl with
    | again =>
      simp only [watch, hr]
      exact ih w1 (ho.trans hw) (fun y hy => hP y (List.mem_cons_of_mem _ hy)) hstep
    | returned =>
      simp only [watch, hr]
      exact ⟨ho.trans hw, hstep⟩

/-- C6 (invariant of the watcher): once `start` has succeeded, after every
finite run of the watch loop (file events of any Op on either path, closed
channels, watcher error events, the stop signal, with reloads that succeed or
fail on the file system of the moment) `get` returns a certificate that a
`loadCertPair` call returned without error: the value `X509KeyPair` produced,
with a nil error, from the two files of the file system at `start` or at one of
the handled inputs.  So it is never a value that came with an error, and, as a
successful `X509KeyPair` never yields the zero certificate, never the zero
value. -/
theorem C6_get_from_successful_load (E : Env Certificate CertPool) (fs0 : FileSystem)
    (w0 : World Certificate CertPool) (ins : List (FileSystem × SelectCase))
    (hstart : (start E fs0 w0).2 = none) :
    (∃ fs c k, (fs = fs0 ∨ fs ∈ ins.map Prod.fst) ∧
        fs w0.c.options.CertificateFile = .ok c ∧ fs w0.c.options.KeyFile = .ok k ∧
        E.lib.X509KeyPair c k = ((watch E (start E fs0 w0).1 ins).1.c.get, none) ∧
        ∀ tr, (loadCertPair E.lib fs w0.c.options.CertificateFile w0.c.options.KeyFile tr).1
          = ((watch E (start E fs0 w0).1 ins).1.c.get, none)) ∧
      ((∀ c k cert, E.lib.X509KeyPair c k = (cert, none) → cert ≠ E.lib.zeroCertificate) →
        (watch E (start E fs0 w0).1 ins).1.c.get ≠ E.lib.zeroCertificate) := by
  have hinit : (start E fs0 w0).1.c.options = w0.c.options ∧
      ∃ fs c k, (fs = fs0 ∨ fs ∈ ins.map Prod.fst) ∧
        fs w0.c.options.CertificateFile = .ok c ∧ fs w0.c.options.KeyFile = .ok k ∧
        E.lib.X509KeyPair c k = ((start E fs0 w0).1.c.cert, none) := by
    rcases caFails_or_caLoads E.lib fs0 w0.c.options with hf | ⟨ca, hca, hpool⟩
    · obtain ⟨err, he, _⟩ := start_of_failure E fs0 w0 (Or.inl hf)
      rw [he] at hstart
      cases hstart
    · rcases pairFails_or_pairLoads E.lib fs0 w0.c.options with hf | ⟨c, k, hc, hk, hp⟩
      · obtain ⟨err, he, _⟩ := start_of_failure E fs0 w0 (Or.inr (Or.inl hf))
        rw [he] at hstart
        cases hstart
      · cases ha1 : E.fwAdd w0.c.options.CertificateFile with
        | some e =>
          obtain ⟨err, he, _⟩ := start_of_failure E fs0 w0 (Or.inr (Or.inr (Or.inl (by simp [ha1]))))
          rw [he] at hstart
          cases hstart
        | none =>
          cases ha2 : E.fwAdd w0.c.options.KeyFile with
          | some e =>
            obtain ⟨err, he, _⟩ :=
              start_of_failure E fs0 w0 (Or.inr (Or.inr (Or.inr (by simp [ha2]))))
            rw [he] at hstart
            cases hstart
          | none =>
            obtain ⟨_, h2, _, _⟩ := start_of_ok E fs0 w0 ca c k hca hpool hc hk hp ha1 ha2
            rw [h2]
            exact ⟨rfl, fs0, c, k, Or.inl rfl, hc, hk, Prod.ext rfl hp⟩
  obtain ⟨ho, hfrom⟩ := hinit
  obtain ⟨_, fs, c, k, hP, hc, hk, hx⟩ :=
    watch_slot E w0.c.options (fun fs => fs = fs0 ∨ fs ∈ ins.map Prod.fst) ins
      (start E fs0 w0).1 ho
      (fun x hx => Or.inr (List.mem_map_of_mem Prod.fst hx)) hfrom
  refine ⟨⟨fs, c, k, hP, hc, hk, hx, ?_⟩, ?_⟩
  · intro tr
    have hp : (E.lib.X509KeyPair c k).2 = none := by rw [hx]
    rw [loadCertPair_of_ok E.lib fs _ _ tr c k hc hk hp, hx]
    rfl
  · intro hlib
    exact hlib c k _ hx

theorem C6_get_from_successful_load_witness :
    (start toyEnv toyFS (newWorld toyEnv toyOptions)).2 = none ∧
    (watch toyEnv (start toyEnv toyFS (newWorld toyEnv toyOptions)).1
        [(toyFSTorn, .certEvents (some ⟨"cert-chain.pem", Write⟩)),
         (toyFSTorn, .certErrors (some "watch error")),
         (toyFSRotated, .keyEvents (some ⟨"key.pem", Create⟩)),
         (toyFSNoCA, .keyEvents (some ⟨"key.pem", Remove⟩))]).1.c.get = ([2], [2]) ∧
    ((∀ c k cert, toyEnv.lib.X509KeyPair c k = (cert, none) →
        cert ≠ toyEnv.lib.zeroCertificate) →
      (watch toyEnv (start toyEnv toyFS (newWorld toyEnv toyOptions)).1
        [(toyFSTorn, .certEvents (some ⟨"cert-chain.pem", Write⟩)),
         (toyFSTorn, .certErrors (some "watch error")),
         (toyFSRotated, .keyEvents (some ⟨"key.pem", Create⟩)),
         (toyFSNoCA, .keyEvents (some ⟨"key.pem", Remove⟩))]).1.c.get
        ≠ toyEnv.lib.zeroCertificate) :=
  ⟨by decide, by decide,
   (C6_get_from_successful_load toyEnv toyFS (newWorld toyEnv toyOptions)
      [(toyFSTorn, .certEvents (some ⟨"cert-chain.pem", Write⟩)),
       (toyFSTorn, .certErrors (some "watch error")),
       (toyFSRotated, .keyEvents (some ⟨"key.pem", Create⟩)),
       (toyFSNoCA, .keyEvents (some ⟨"key.pem", Remove⟩))] (by decide)).2⟩

end Creds

/-! ## Theorems: the secret discovery server -/

namespace SDS

open Creds (Bytes GoError)

theorem lookup_unregister (nodeId : String) (reg : List Session) :
    lookup nodeId (unregister nodeId reg) = none := by
  induction reg with
  | nil => rfl
  | cons s rest ih =>
    unfold unregister at ih ⊢
    by_cases h : s.nodeId = nodeId
    · simp only [List.filter, h, ne_eq, not_true_eq_false, decide_False]
      exact ih
    · simp only [List.filter, h, ne_eq, not_false_eq_true, decide_True, lookup, if_false]
      exact ih

theorem lookup_onChannel (nodeId : String) (f : List Signal → List Signal)
    (reg : List Session) :
    lookup nodeId (onChannel nodeId f reg)
      = (lookup nodeId reg).map (fun s => { s with channel := f s.channel }) := by
  induction reg with
  | nil => rfl
  | cons s rest ih =>
    by_cases h : s.nodeId = nodeId
    · simp [onChannel, lookup, h]
    · simp [onChannel, lookup, h, ih]

theorem unregister_onChannel (nodeId : String) (f : List Signal → List Signal)
    (reg : List Session) :
    unregister nodeId (onChannel nodeId f reg) = unregister nodeId reg := by
  induction reg with
  | nil => rfl
  | cons s rest ih =>
    unfold unregister at ih ⊢
    by_cases h : s.nodeId = nodeId
    · simp [onChannel, List.filter, h]
    · simp only [onChannel, h, if_false, List.filter, ne_eq, not_false_eq_true, decide_True]
      rw [ih]

theorem mem_unregister (nodeId : String) (reg : List Session) :
    ∀ s ∈ unregister nodeId reg, s.nodeId ≠ nodeId := by
  intro s hs
  unfold unregister at hs
  simpa using (List.mem_filter.1 hs).2

theorem unregister_eq_nil (nodeId : String) (reg : List Session)
    (h : ∀ s ∈ reg, s.nodeId = nodeId) : unregister nodeId reg = [] := by
  unfold unregister
  rw [List.filter_eq_nil_iff]
  intro s hs
  simp [h s hs]

theorem endedStreams_append {Any : Type} (a b : List (WireEvent Any)) :
    endedStreams (a ++ b) = endedStreams a ++ endedStreams b := by
  induction a with
  | nil => rfl
  | cons x xs ih => cases x <;> simp [endedStreams, ih]

/-- Without a session for the node the handler steps change nothing. -/
theorem deliverN_of_noSession {Any : Type} (codec : AnyCodec Any) (n : Nat) (srv : Server Any)
    (nodeId : String) (h : lookup nodeId srv.registry = none) :
    deliverN codec n srv nodeId = srv := by
  induction n with
  | zero => rfl
  | succ m ih =>
    have hd : deliver codec srv nodeId = srv := by
      unfold deliver
      rw [h]
    rw [deliverN, hd, ih]

/-- A channel that holds the sentinel is worked off within as many handler
steps as it holds signals: the stream is ended once, without error, and the
sessions of the node are gone, the others untouched. -/
theorem deliverN_closes {Any : Type} (codec : AnyCodec Any) (nodeId : String) :
    ∀ (ch : List Signal) (srv : Server Any) (sess : Session),
      lookup nodeId srv.registry = some sess → sess.channel = ch → none ∈ ch →
      ∀ n, ch.length ≤ n →
        (deliverN codec n srv nodeId).registry = unregister nodeId srv.registry ∧
        endedStreams (deliverN codec n srv nodeId).wire
          = endedStreams srv.wire ++ [(nodeId, none)] := by
  intro ch
  induction ch with
  | nil =>
    intro srv sess _ _ hmem
    cases hmem
  | cons sig rest ih =>
    intro srv sess hl hch hmem n hn
    cases n with
    | zero => simp at hn
    | succ m =>
      cases sig with
      | none =>
        have hd : deliver codec srv nodeId
            = { registry := unregister nodeId srv.registry,
                wire := srv.wire ++ [WireEvent.ended nodeId none] } := by
          unfold deliver
          rw [hl]
          simp only [hch]
        rw [deliverN, hd, deliverN_of_noSession codec m _ nodeId (lookup_unregister _ _)]
        exact ⟨rfl, by simp [endedStreams_append, endedStreams]⟩
      | some item =>
        have hd : deliver codec srv nodeId
            = { registry := onChannel nodeId List.tail srv.registry,
                wire := srv.wire
                  ++ [WireEvent.response nodeId (sdsDiscoveryResponse codec item)] } := by
          unfold deliver
          rw [hl]
          simp only [hch]
        have hl1 : lookup nodeId (onChannel nodeId List.tail srv.registry)
            = some { sess with channel := rest } := by
          rw [lookup_onChannel, hl]
          simp [hch]
        have hmem1 : none ∈ rest := by
          rcases List.mem_cons.1 hmem with h | h
          · cases h
          · exact h
        have hn1 : rest.length ≤ m := by
          simp only [List.length_cons] at hn
          omega
        obtain ⟨h1, h2⟩ := ih
          { registry := onChannel nodeId List.tail srv.registry,
            wire := srv.wire ++ [WireEvent.response nodeId (sdsDiscoveryResponse codec item)] }
          { sess with channel := rest } hl1 rfl hmem1 m hn1
        rw [deliverN, hd]
        refine ⟨?_, ?_⟩
        · rw [h1]
          exact unregister_onChannel _ _ _
        · rw [h2]
          simp [endedStreams_append, endedStreams]

/-- With no session for the node `NotifyProxy` is a no-op. -/
theorem NotifyProxy_of_noSession {Any : Type} (srv : Server Any) (nodeId : String)
    (x : Option SecretItem) (h : lookup nodeId srv.registry = none) :
    NotifyProxy srv nodeId x = (srv, none) := by
  unfold NotifyProxy
  rw [h]

/-- C7 (wire translation is verbatim): for every Fetch or Stream request with
token `T`, identity `I = resourceNames[0]` and node `N` for which the store's
`GetSecret(N, I, T)` succeeds with the item `S` of that identity (`S` carries
the identity `I` that was asked for, which recovering `S` from a resource named
`I` takes for granted), and for every envelope codec that decodes what it
encoded, the response (for Stream, the initial response written to the stream
of `N`, the session being registered) carries exactly one resource; it decodes
to a TLS-certificate secret whose name equals `I`, whose certificate-chain
inline bytes equal `S.CertificateChain` and whose private-key inline bytes
equal `S.PrivateKey`, so that reading the decoded secret back gives `S`
unchanged. -/
theorem C7_wire_translation_verbatim {Any : Type} (codec : AnyCodec Any) (st : SecretStore)
    (srv : Server Any) (T I N : String) (rest : List String) (S : SecretItem)
    (hcodec : ∀ pb, codec.UnmarshalAny (codec.MarshalAny pb) = some pb)
    (hget : st N I T = .ok S) (hid : S.SpiffeID = I) :
    (∃ resp, FetchSecrets codec st (some T) { ResourceNames := I :: rest, Node := { Id := N } }
          = .ok resp ∧
        resp.Resources.length = 1 ∧
        ∃ pb, decodeFirst codec resp = some pb ∧ pb.Name = I ∧
          pb.TlsCertificate.CertificateChain.InlineBytes = S.CertificateChain ∧
          pb.TlsCertificate.PrivateKey.InlineBytes = S.PrivateKey ∧
          ofSecret pb = S) ∧
      (∃ resp, StreamSecrets codec st srv (some T)
            { ResourceNames := I :: rest, Node := { Id := N } }
          = ({ registry := register N srv.registry,
               wire := srv.wire ++ [WireEvent.response N resp] }, none) ∧
        resp.Resources.length = 1 ∧
        ∃ pb, decodeFirst codec resp = some pb ∧ pb.Name = I ∧
          pb.TlsCertificate.CertificateChain.InlineBytes = S.CertificateChain ∧
          pb.TlsCertificate.PrivateKey.InlineBytes = S.PrivateKey ∧
          ofSecret pb = S) := by
  have hdec : decodeFirst codec (sdsDiscoveryResponse codec S) = some (toSecret S) := by
    simp [decodeFirst, sdsDiscoveryResponse, hcodec]
  refine ⟨⟨sdsDiscoveryResponse codec S, ?_, rfl, toSecret S, hdec, hid, rfl, rfl, rfl⟩,
    ⟨sdsDiscoveryResponse codec S, ?_, rfl, toSecret S, hdec, hid, rfl, rfl, rfl⟩⟩
  · simp [FetchSecrets, hget]
  · simp [StreamSecrets, hget]

theorem C7_wire_translation_verbatim_witness :
    (∀ pb, toyCodec.UnmarshalAny (toyCodec.MarshalAny pb) = some pb) ∧
    mockSecretStore toyQuote proxyID fakeSpiffeID fakeCredentialToken
      = .ok { CertificateChain := fakeCertificateChain, PrivateKey := fakePrivateKey,
              SpiffeID := fakeSpiffeID } ∧
    (match FetchSecrets toyCodec (mockSecretStore toyQuote) (some fakeCredentialToken)
        testRequest with
      | .ok resp => verifySDSSResponse toyCodec resp fakePrivateKey fakeCertificateChain
      | .error _ => false) = true ∧
    ∃ resp, FetchSecrets toyCodec (mockSecretStore toyQuote) (some fakeCredentialToken)
          { ResourceNames := fakeSpiffeID :: [], Node := { Id := proxyID } } = .ok resp ∧
        resp.Resources.length = 1 ∧
        ∃ pb, decodeFirst toyCodec resp = some pb ∧ pb.Name = fakeSpiffeID ∧
          pb.TlsCertificate.CertificateChain.InlineBytes = fakeCertificateChain ∧
          pb.TlsCertificate.PrivateKey.InlineBytes = fakePrivateKey ∧
          ofSecret pb = { CertificateChain := fakeCertificateChain,
                          PrivateKey := fakePrivateKey, SpiffeID := fakeSpiffeID } :=
  ⟨fun _ => rfl, rfl, by decide,
   (C7_wire_translation_verbatim toyCodec (mockSecretStore toyQuote) { registry := [], wire := [] }
      fakeCredentialToken fakeSpiffeID proxyID []
      { CertificateChain := fakeCertificateChain, PrivateKey := fakePrivateKey,
        SpiffeID := fakeSpiffeID } (fun _ => rfl) rfl rfl).1⟩

/-- C8 (sentinel revoke): for every node id `N` with a session in the
registry, `NotifyProxy(N, nil)` returns without error, and once the handler of
`N` has taken as many steps as signals wait on its channel, the server has
ended the stream of `N` (once, without error) and the session of `N` is out of
the registry: the registry is the former one without `N`, it holds no session
of `N`, its size is 0 when `N` was the only connected node, and a later
`NotifyProxy(N, x)` is a no-op for every `x`. -/
theorem C8_sentinel_revoke {Any : Type} (codec : AnyCodec Any) (srv : Server Any) (N : String)
    (sess : Session) (hsess : lookup N srv.registry = some sess) :
    (NotifyProxy srv N none).2 = none ∧
      pending N (NotifyProxy srv N none).1.registry = sess.channel.length + 1 ∧
      ∀ n, pending N (NotifyProxy srv N none).1.registry ≤ n →
        endedStreams (afterRevoke codec n srv N).wire = endedStreams srv.wire ++ [(N, none)] ∧
        (afterRevoke codec n srv N).registry = unregister N srv.registry ∧
        lookup N (afterRevoke codec n srv N).registry = none ∧
        (∀ s ∈ (afterRevoke codec n srv N).registry, s.nodeId ≠ N) ∧
        ((∀ s ∈ srv.registry, s.nodeId = N) → (afterRevoke codec n srv N).registry.length = 0) ∧
        ∀ x, NotifyProxy (afterRevoke codec n srv N) N x = (afterRevoke codec n srv N, none) := by
  have hn : NotifyProxy srv N none
      = ({ srv with registry := onChannel N (fun ch => ch ++ [none]) srv.registry }, none) := by
    unfold NotifyProxy
    rw [hsess]
  have hl : lookup N (NotifyProxy srv N none).1.registry
      = some { sess with channel := sess.channel ++ [none] } := by
    rw [hn]
    simp only
    rw [lookup_onChannel, hsess]
    rfl
  have hp : pending N (NotifyProxy srv N none).1.registry = sess.channel.length + 1 := by
    unfold pending
    rw [hl]
    simp
  refine ⟨by rw [hn], hp, ?_⟩
  intro n hle
  rw [hp] at hle
  obtain ⟨h1, h2⟩ := deliverN_closes codec N (sess.channel ++ [none])
    (NotifyProxy srv N none).1 { sess with channel := sess.channel ++ [none] } hl rfl
    (by simp) n (by simpa using hle)
  have hreg : (afterRevoke codec n srv N).registry = unregister N srv.registry := by
    unfold afterRevoke
    rw [h1, hn]
    exact unregister_onChannel _ _ _
  have hwire : endedStreams (afterRevoke codec n srv N).wire
      = endedStreams srv.wire ++ [(N, none)] := by
    unfold afterRevoke
    rw [h2, hn]
  have hnone : lookup N (afterRevoke codec n srv N).registry = none := by
    rw [hreg]
    exact lookup_unregister _ _
  refine ⟨hwire, hreg, hnone, ?_, ?_, ?_⟩
  · rw [hreg]
    exact mem_unregister _ _
  · intro hall
    rw [hreg, unregister_eq_nil N srv.registry hall]
    rfl
  · intro x
    exact NotifyProxy_of_noSession _ _ _ hnone

theorem C8_sentinel_revoke_witness :
    lookup proxyID testServer.registry = some { nodeId := proxyID, channel := [] } ∧
    (NotifyProxy testServer proxyID none).2 = none ∧
    endedStreams (afterRevoke toyCodec 1 testServer proxyID).wire = [(proxyID, none)] ∧
    (afterRevoke toyCodec 1 testServer proxyID).registry.length = 0 :=
  have h := C8_sentinel_revoke toyCodec testServer proxyID { nodeId := proxyID, channel := [] }
    (by decide)
  ⟨by decide, h.1, (h.2.2 1 (by decide)).1,
   (h.2.2 1 (by decide)).2.2.2.2.1 (by decide)⟩

end SDS
